import Mathlib

/-!
Verification of the SpeakCheck job pipeline against its specification.

The definitions below are a shallow embedding of the Python sources:
  - src/main.py        (orchestrator, source resolution, cleanup, fusion)
  - src/database.py    (job store: fetch_next_job, mark_completed, mark_failed,
                        update_speech_after_transcription)
  - src/pdf_to_text.py and src/pdf_ocr.py (document text extraction interface)
  - src/question_generator.py (question generation and sanitization)

External effects (network, object storage, the speech-to-text model, the
database connection, the OCR engine) are modelled as oracle parameters giving
the outcome of each call; the control flow around those calls is translated
from the source.
-/

/- ## Python string semantics -/

/-- Whitespace characters recognised by the Python str.strip method
(ASCII subset, which covers every string the pipeline manipulates). -/
def pyIsSpace (c : Char) : Bool :=
  c = ' ' || c = '\t' || c = '\n' || c = '\r' || c = Char.ofNat 11 || c = Char.ofNat 12

/-- Python str.strip with no arguments: drop leading and trailing whitespace. -/
def pyStrip (s : String) : String :=
  ⟨((s.data.dropWhile pyIsSpace).reverse.dropWhile pyIsSpace).reverse⟩

/-- Python truthiness test used in the fusion filters: a string passes
the test if it is nonempty and its strip is nonempty. -/
def pyTruthyText (s : String) : Bool :=
  s != "" && pyStrip s != ""

/-- Python str.join over a list. -/
def joinSep (sep : String) : List String → String
  | [] => ""
  | x :: xs => xs.foldl (fun acc y => acc ++ sep ++ y) x

/-- Python slicing s[:n]. -/
def pyTake (n : Nat) (s : String) : String :=
  ⟨s.data.take n⟩

/-- Python str.lstrip with a single slash argument. -/
def pyLstripSlash (s : String) : String :=
  ⟨s.data.dropWhile (fun c => c = '/')⟩

/- ## Text fusion (claims about combined transcript and document text) -/

/-- Embeds main.py lines 423-424: the combined source text built by
process_job from the transcript text and the document text. -/
def combinedSourceText (transcriptText documentText : String) : String :=
  joinSep "\n\n" (([transcriptText, documentText]).filter pyTruthyText)

/-- Embeds database.py lines 506-510: the combined text computed inside
Database.update_speech_after_transcription to derive the speech-name snippet.
Each retained part is stripped before joining. -/
def dbCombinedText (transcript : String) (documentText : Option String) : String :=
  joinSep "\n\n" ((([transcript, documentText.getD ""]).filter pyTruthyText).map pyStrip)

/-- C7: fusion skips whichever part is blank, otherwise joins both parts with
the separator in transcript-then-document order, and fusing transcript A with
empty document text yields exactly A. -/
theorem c7_fusion (t d : String) :
    (pyTruthyText t = false →
      combinedSourceText t d = (if pyTruthyText d then d else "")) ∧
    (pyTruthyText d = false →
      combinedSourceText t d = (if pyTruthyText t then t else "")) ∧
    (pyTruthyText t = true → pyTruthyText d = true →
      combinedSourceText t d = t ++ "\n\n" ++ d) ∧
    combinedSourceText "A" "" = "A" := by
  refine ⟨?_, ?_, ?_, by decide⟩ <;>
    · intros
      simp only [combinedSourceText, List.filter, joinSep, *]
      cases h1 : pyTruthyText t <;> cases h2 : pyTruthyText d <;>
        simp_all [joinSep, List.foldl]

/-- Closed instance of c7_fusion at concrete inputs. -/
theorem c7_fusion_witness :
    combinedSourceText "hello" "world" = "hello" ++ "\n\n" ++ "world" :=
  (c7_fusion "hello" "world").2.2.1 (by decide) (by decide)

/-- C10 counterexample: with a transcript carrying leading whitespace, the
fusion in process_job and the fusion in update_speech_after_transcription
disagree, because the latter strips each retained part. -/
theorem c10_fusion_disagreement :
    combinedSourceText " A" "" = " A" ∧ dbCombinedText " A" (some "") = "A" ∧
    combinedSourceText " A" "" ≠ dbCombinedText " A" (some "") := by
  decide

/-- C10 amended: the two fusion implementations agree on every input whose
parts carry no leading or trailing whitespace; in general the snippet-side
fusion equals the process_job fusion with each retained part stripped. -/
theorem c10_fusion_agreement_amended (t : String) (d : Option String)
    (ht : pyStrip t = t) (hd : pyStrip (d.getD "") = d.getD "") :
    combinedSourceText t (d.getD "") = dbCombinedText t d := by
  simp only [combinedSourceText, dbCombinedText, List.filter]
  cases h1 : pyTruthyText t <;> cases h2 : pyTruthyText (d.getD "") <;>
    simp_all [joinSep, List.foldl]

/-- Closed instance of c10_fusion_agreement_amended at concrete inputs. -/
theorem c10_fusion_agreement_witness :
    combinedSourceText "A" ((some "B").getD "") = dbCombinedText "A" (some "B") :=
  c10_fusion_agreement_amended "A" (some "B") (by decide) (by decide)

/- ## Exceptions -/

/-- A Python exception, abstracted to its class name and message. -/
structure PyExc where
  name : String
  msg : String
deriving DecidableEq, Repr

/-- The error string built by process_job on failure (main.py line 441). -/
def excMessage (e : PyExc) : String :=
  e.name ++ ": " ++ e.msg

/- ## Document text extraction (main.py extract_document_text) -/

/-- Result dictionary of PDFTextExtractor.extract_text (pdf_to_text.py):
a success flag, a possibly absent full_text entry, and a possibly absent
method entry (absent on the file-not-found failure dictionary). -/
structure PrimaryResult where
  success : Bool
  fullText : Option String
  method : Option String
deriving DecidableEq, Repr

/-- Result dictionary of PDFOCR.extract_text_from_pdf (pdf_ocr.py),
abstracted to the full_text entry read by the caller. -/
structure OcrResult where
  fullText : String
deriving DecidableEq, Repr

/-- The details entry of the dictionary returned by extract_document_text. -/
inductive DocDetails
  | primary (p : PrimaryResult)
  | ocr (o : OcrResult)
  | errNote (msg : String)
deriving DecidableEq, Repr

/-- The dictionary returned by extract_document_text. -/
structure DocExtract where
  method : String
  fullText : String
  details : DocDetails
deriving DecidableEq, Repr

/-- Embeds main.py lines 310-331: try the direct extractor first; if it did
not succeed with non-empty text, run the OCR fallback; if the OCR fallback
raises, return empty text with an error note instead of propagating. -/
def extractDocumentText (primary : PrimaryResult) (ocrOutcome : Except PyExc OcrResult) :
    DocExtract :=
  if primary.success && primary.fullText.getD "" != "" then
    { method := primary.method.getD "pdfplumber"
      fullText := primary.fullText.getD ""
      details := .primary primary }
  else
    match ocrOutcome with
    | .ok secondary =>
        { method := "ocr", fullText := secondary.fullText, details := .ocr secondary }
    | .error e =>
        { method := "unavailable", fullText := "", details := .errNote (excMessage e) }

/-- C5: direct-extraction success with non-empty text short-circuits OCR and is
returned unchanged; a direct method yielding no non-empty text invokes the OCR
fallback whose output, possibly empty, becomes the result; and when the OCR
fallback raises as well, the result is empty text with an error note in its
details, produced totally, without an exception escaping to fail the job. -/
theorem c5_document_extraction (primary : PrimaryResult)
    (ocrOutcome : Except PyExc OcrResult) :
    (primary.success = true → primary.fullText.getD "" ≠ "" →
      extractDocumentText primary ocrOutcome =
        { method := primary.method.getD "pdfplumber"
          fullText := primary.fullText.getD ""
          details := .primary primary } ∧
      ∀ other : Except PyExc OcrResult,
        extractDocumentText primary other = extractDocumentText primary ocrOutcome) ∧
    ((primary.success = false ∨ primary.fullText.getD "" = "") →
      (∀ secondary, ocrOutcome = .ok secondary →
        extractDocumentText primary ocrOutcome =
          { method := "ocr", fullText := secondary.fullText, details := .ocr secondary }) ∧
      (∀ e, ocrOutcome = .error e →
        (extractDocumentText primary ocrOutcome).fullText = "" ∧
        (extractDocumentText primary ocrOutcome).details = .errNote (excMessage e))) := by
  constructor
  · intro hs ht
    have hcond : (primary.success && primary.fullText.getD "" != "") = true := by
      simp [hs, ht]
    refine ⟨by simp [extractDocumentText, hcond], ?_⟩
    intro other
    simp [extractDocumentText, hcond]
  · intro hfail
    have hcond : (primary.success && primary.fullText.getD "" != "") = false := by
      rcases hfail with h | h <;> simp [h]
    constructor
    · intro secondary hsec
      simp [extractDocumentText, hcond, hsec]
    · intro e he
      simp [extractDocumentText, hcond, he]

/-- Closed instance of c5_document_extraction: both methods failing yields
empty text with an error note. -/
theorem c5_document_extraction_witness :
    (extractDocumentText ⟨false, none, none⟩
        (.error ⟨"PDFInfoNotInstalledError", "poppler missing"⟩)).fullText = "" ∧
    (extractDocumentText ⟨false, none, none⟩
        (.error ⟨"PDFInfoNotInstalledError", "poppler missing"⟩)).details =
      .errNote (excMessage ⟨"PDFInfoNotInstalledError", "poppler missing"⟩) :=
  ((c5_document_extraction ⟨false, none, none⟩
      (.error ⟨"PDFInfoNotInstalledError", "poppler missing"⟩)).2
    (Or.inl rfl)).2 ⟨"PDFInfoNotInstalledError", "poppler missing"⟩ rfl

/- ## Source resolution (main.py resolve_video_source / resolve_document_source) -/

/-- Python str.startswith, on the character lists underlying both strings. -/
def pyStartsWith (pre s : String) : Bool :=
  pre.data.isPrefixOf s.data

/-- Split a character list on a separator character, keeping empty pieces,
as the Python str.split method does with an explicit separator. -/
def splitChar (sep : Char) : List Char → List (List Char)
  | [] => [[]]
  | c :: rest =>
    match splitChar sep rest with
    | [] => [[]]
    | h :: t => if c = sep then [] :: h :: t else (c :: h) :: t

/-- Python str.lower, restricted to ASCII as the compared suffixes are. -/
def pyLower (s : String) : String :=
  ⟨s.data.map Char.toLower⟩

/-- The name of a path: its final slash-separated component, as computed by
pathlib for the path strings the resolvers build. -/
def lastComponent (s : String) : String :=
  ⟨(splitChar '/' s.data).getLast?.getD s.data⟩

/-- The pathlib suffix of a path string: the extension of its final component,
starting at the last dot, empty when the component has no dot after its first
character. -/
def pySuffix (s : String) : String :=
  let name := (lastComponent s).data
  if name.contains '.' then
    let ext := name.reverse.takeWhile (fun c => c != '.')
    if ext.length + 1 < name.length then ⟨'.' :: ext.reverse⟩ else ""
  else ""

/-- A network interaction performed during source resolution. -/
inductive NetEvent
  | webFetch (url : String)
  | httpGet (url : String)
  | s3Get (bucket key : String)
deriving DecidableEq, Repr

/-- The settings fields consulted by the resolvers. -/
structure ResolverSettings where
  downloadsDir : String
  awsBucket : String
deriving DecidableEq, Repr

/-- Python str.partition against the first slash: the part before it and the
part after it, the latter empty when no slash occurs. -/
def partitionSlash (s : String) : String × String :=
  let before := s.data.takeWhile (fun c => c != '/')
  let rest := s.data.drop before.length
  (⟨before⟩, ⟨rest.drop 1⟩)

/-- Embeds the shared storage-reference branch of both resolvers
(main.py lines 232-239 and 272-279): an explicit s3 reference is split into
bucket and key and rejected with a ValueError when either part is empty;
any other reference is a bare key against the configured default bucket. -/
def parseStorageRef (source : String) (settings : ResolverSettings) :
    Except PyExc (String × String) :=
  if pyStartsWith "s3://" source then
    let remainder : String := ⟨source.data.drop 5⟩
    let (bucket, key) := partitionSlash remainder
    if bucket = "" || key = "" then
      .error ⟨"ValueError", "invalid s3 path: " ++ source⟩
    else
      .ok (bucket, key)
  else
    .ok (settings.awsBucket, pyLstripSlash source)

/-- File extensions accepted by download_document_from_web (main.py line 297). -/
def allowedDocSuffixes : List String := [".pdf", ".ppt", ".pptx"]

/-- Embeds main.py lines 294-307: reject unsupported document suffixes before
any network interaction, otherwise perform the HTTP download; an HTTP failure
is swallowed and yields no path. -/
def downloadDocumentFromWeb (httpOutcome : Except PyExc Unit) (url : String)
    (settings : ResolverSettings) (speechId : String) :
    Option String × List NetEvent :=
  let suffix := pyLower (pySuffix url)
  if allowedDocSuffixes.contains suffix then
    let target := settings.downloadsDir ++ "/" ++ speechId ++ "_document" ++ suffix
    match httpOutcome with
    | .ok _ => (some target, [.httpGet url])
    | .error _ => (none, [.httpGet url])
  else
    (none, [])

/-- Embeds main.py lines 254-291 resolve_document_source: an absent or empty
reference resolves to nothing; an existing local path is returned unchanged;
an HTTP reference goes through downloadDocumentFromWeb; anything else is a
storage reference downloaded to a speech-id-prefixed local path unless that
path already exists. The existing-file check and the network outcomes are
oracle parameters; the event list records every network interaction. -/
def resolveDocumentSource (fileExists : String → Bool)
    (httpOutcome : Except PyExc Unit) (s3Outcome : Except PyExc Unit)
    (settings : ResolverSettings) (speechId : String)
    (documentUrl : Option String) :
    Except PyExc (Option String) × List NetEvent :=
  match documentUrl with
  | none => (.ok none, [])
  | some url =>
    if url = "" then (.ok none, [])
    else if fileExists url then (.ok (some url), [])
    else if pyStartsWith "http://" url || pyStartsWith "https://" url then
      let (p, evs) := downloadDocumentFromWeb httpOutcome url settings speechId
      (.ok p, evs)
    else
      match parseStorageRef url settings with
      | .error e => (.error e, [])
      | .ok (bucket, key) =>
        let localPath :=
          settings.downloadsDir ++ "/" ++ speechId ++ "_" ++ lastComponent key
        if fileExists localPath then (.ok (some localPath), [])
        else
          match s3Outcome with
          | .ok _ => (.ok (some localPath), [.s3Get bucket key])
          | .error e =>
              (.error ⟨"RuntimeError", "s3 document download failed: " ++ e.msg⟩,
               [.s3Get bucket key])

/-- Embeds main.py lines 217-251 resolve_video_source over an explicit
filesystem: the set of existing files is a list of paths, a download adds the
downloaded path to it, and the event list records every network interaction.
An existing local path is returned unchanged; an HTTP reference goes through
the web downloader, whose total failure raises; anything else is a storage
reference downloaded to a job-id-prefixed local path unless that path
already exists. -/
def resolveVideoSource (fs : List String) (settings : ResolverSettings)
    (jobId : Nat) (videoSource : String)
    (webOutcome : Except PyExc String) (s3Outcome : Except PyExc Unit) :
    Except PyExc (String × List String × List NetEvent) :=
  if fs.contains videoSource then .ok (videoSource, fs, [])
  else if pyStartsWith "http://" videoSource || pyStartsWith "https://" videoSource then
    match webOutcome with
    | .ok p => .ok (p, p :: fs, [.webFetch videoSource])
    | .error e => .error ⟨"RuntimeError", "web video download failed: " ++ e.msg⟩
  else
    match parseStorageRef videoSource settings with
    | .error e => .error e
    | .ok (bucket, key) =>
      let localPath :=
        settings.downloadsDir ++ "/" ++ toString jobId ++ "_" ++ lastComponent key
      if fs.contains localPath then .ok (localPath, fs, [])
      else
        match s3Outcome with
        | .ok _ => .ok (localPath, localPath :: fs, [.s3Get bucket key])
        | .error e => .error ⟨"RuntimeError", "s3 download failed: " ++ e.msg⟩

/-- C8 counterexample: a storage-tier document reference with an unsupported
extension is downloaded anyway; the object-storage tier performs a network
call without any extension check. -/
theorem c8_s3_tier_counterexample :
    pyLower (pySuffix "s3://lectures/notes.txt") ∉ allowedDocSuffixes ∧
    (resolveDocumentSource (fun _ => false) (.ok ()) (.ok ())
        ⟨"downloads", "bkt"⟩ "77" (some "s3://lectures/notes.txt")).2 =
      [.s3Get "lectures" "notes.txt"] := by
  decide

/-- C8 amended: extension rejection happens only on the HTTP tier, where an
unsupported suffix resolves to nothing with no network interaction at all;
the object-storage tier downloads without checking the extension. -/
theorem c8_http_tier_amended (fileExists : String → Bool)
    (httpOutcome s3Outcome : Except PyExc Unit) (settings : ResolverSettings)
    (speechId url : String)
    (hne : url ≠ "") (hnl : fileExists url = false)
    (hhttp : pyStartsWith "http://" url = true ∨ pyStartsWith "https://" url = true)
    (hbad : ¬ pyLower (pySuffix url) ∈ allowedDocSuffixes) :
    resolveDocumentSource fileExists httpOutcome s3Outcome settings speechId
      (some url) = (.ok none, []) := by
  have hor : (pyStartsWith "http://" url || pyStartsWith "https://" url) = true := by
    rcases hhttp with h | h <;> simp [h]
  simp [resolveDocumentSource, hne, hnl, hor, downloadDocumentFromWeb, hbad]

/-- Closed instance of c8_http_tier_amended at a concrete unsupported URL. -/
theorem c8_http_tier_witness :
    resolveDocumentSource (fun _ => false) (.ok ()) (.ok ())
      ⟨"downloads", "bkt"⟩ "77" (some "https://example.com/talk.mp4") =
      (.ok none, []) :=
  c8_http_tier_amended (fun _ => false) (.ok ()) (.ok ()) ⟨"downloads", "bkt"⟩
    "77" "https://example.com/talk.mp4" (by decide) rfl (Or.inr (by decide))
    (by decide)

/-- C9: on the storage tier, once the first resolution has produced the
job-id-prefixed local path, resolving the same reference again for the same
job returns that path with no network interaction and no filesystem change,
whatever the download oracles would answer. -/
theorem c9_idempotent_reresolution (fs : List String)
    (settings : ResolverSettings) (jobId : Nat) (src : String)
    (webOutcome webOutcome2 : Except PyExc String)
    (s3Outcome s3Outcome2 : Except PyExc Unit)
    (p : String) (fs1 : List String) (evs : List NetEvent)
    (hnh : (pyStartsWith "http://" src || pyStartsWith "https://" src) = false)
    (hfirst : resolveVideoSource fs settings jobId src webOutcome s3Outcome =
      .ok (p, fs1, evs))
    (hsrc1 : fs1.contains src = false) :
    resolveVideoSource fs1 settings jobId src webOutcome2 s3Outcome2 =
      .ok (p, fs1, []) := by
  have hsrc1' : ¬ (fs1.contains src = true) := by rw [hsrc1]; exact Bool.false_ne_true
  by_cases hloc : fs.contains src = true
  · unfold resolveVideoSource at hfirst
    rw [if_pos hloc] at hfirst
    simp only [Except.ok.injEq, Prod.mk.injEq] at hfirst
    obtain ⟨-, hfs, -⟩ := hfirst
    rw [← hfs] at hsrc1
    rw [hloc] at hsrc1
    cases hsrc1
  · unfold resolveVideoSource at hfirst
    rw [if_neg hloc, if_neg (by simp [hnh])] at hfirst
    rcases hparse : parseStorageRef src settings with e | ⟨bucket, key⟩ <;>
      rw [hparse] at hfirst
    · cases hfirst
    · dsimp only at hfirst
      by_cases hcache :
          fs.contains (settings.downloadsDir ++ "/" ++ toString jobId ++ "_" ++
            lastComponent key) = true
      · rw [if_pos hcache] at hfirst
        simp only [Except.ok.injEq, Prod.mk.injEq] at hfirst
        obtain ⟨hp, hfs, -⟩ := hfirst
        unfold resolveVideoSource
        rw [if_neg hsrc1', if_neg (by simp [hnh]), hparse]
        dsimp only
        rw [← hfs, if_pos hcache, hp]
      · rw [if_neg hcache] at hfirst
        rcases s3Outcome with e | u
        · cases hfirst
        · dsimp only at hfirst
          simp only [Except.ok.injEq, Prod.mk.injEq] at hfirst
          obtain ⟨hp, hfs, -⟩ := hfirst
          unfold resolveVideoSource
          rw [if_neg hsrc1', if_neg (by simp [hnh]), hparse]
          dsimp only
          rw [if_pos (by rw [← hfs]; simp), hp]

/-- Closed instance of c9_idempotent_reresolution: a bare-key source resolved
once to downloads/3_talk.mp4 resolves again to the same path without any
further download. -/
theorem c9_idempotent_witness :
    resolveVideoSource ["downloads/3_talk.mp4"] ⟨"downloads", "bkt"⟩ 3
      "videos/talk.mp4" (.error ⟨"E", "unused"⟩) (.error ⟨"E", "unused"⟩) =
      .ok ("downloads/3_talk.mp4", ["downloads/3_talk.mp4"], []) :=
  c9_idempotent_reresolution [] ⟨"downloads", "bkt"⟩ 3 "videos/talk.mp4"
    (.error ⟨"E", "unused"⟩) (.error ⟨"E", "unused"⟩) (.ok ()) (.error ⟨"E", "unused"⟩)
    "downloads/3_talk.mp4" ["downloads/3_talk.mp4"] [.s3Get "bkt" "videos/talk.mp4"]
    (by decide) (by rfl) (by rfl)

/- ## Job store rows (database.py transcription_jobs) -/

/-- The status enum of transcription_jobs. -/
inductive JStatus
  | pending
  | processing
  | completed
  | failed
  | cancelled
deriving DecidableEq, Repr

/-- A sanitized question entry as built by maybe_generate_questions
(main.py lines 341-354). -/
structure SanQ where
  question : String
  answer : Option String
  modelAnswer : Option String
  improvementTips : Option String
  score : Option Int
deriving DecidableEq, Repr

/-- A row of the transcription_jobs table. The two jsonb blobs are modelled
by their typed contents: the metadata blob only by its presence, since its
quality numbers are floating-point, and the questions blob by the sanitized
question list that is serialised into it. -/
structure JobRow where
  id : Nat
  videoSource : String
  userId : Option String
  stageId : Option String
  speechId : Option String
  language : Option String
  modelSize : Option String
  generateQuestions : Option Bool
  status : JStatus
  transcript : Option String
  transcriptMetadata : Option Unit
  questions : Option (List SanQ)
  errorMessage : Option String
  createdAt : Nat
  updatedAt : Nat
deriving DecidableEq, Repr

/-- A SQL value in a result dictionary. -/
inductive ColValue
  | int (n : Int)
  | str (s : String)
  | bool (b : Bool)
  | null
deriving DecidableEq, Repr

/-- Render a nullable text column. -/
def optStrVal : Option String → ColValue
  | none => .null
  | some s => .str s

/-- The column names of transcription_jobs, from the CREATE TABLE statement
and the ALTER TABLE additions in Database.init_schema (database.py). -/
def transcriptionJobsColumns : List String :=
  ["id", "video_source", "user_id", "stage_id", "speech_id", "language",
   "model_size", "generate_questions", "status", "transcript",
   "transcript_metadata", "questions", "error_message", "created_at",
   "updated_at"]

/-- The dictionary returned for a claimed job by the SELECT inside
fetch_next_job (database.py lines 266-282): eight columns, with language,
model_size and generate_questions coalesced to their defaults. -/
def projectJob (r : JobRow) : List (String × ColValue) :=
  [("id", .int r.id),
   ("video_source", .str r.videoSource),
   ("language", .str (r.language.getD "ko")),
   ("model_size", .str (r.modelSize.getD "medium")),
   ("generate_questions", .bool (r.generateQuestions.getD true)),
   ("user_id", optStrVal r.userId),
   ("stage_id", optStrVal r.stageId),
   ("speech_id", optStrVal r.speechId)]

/-- One step of a running minimum, keeping the earlier element on ties. -/
def minStep (f : α → Nat) (acc : Option α) (x : α) : Option α :=
  match acc with
  | none => some x
  | some b => if f x < f b then some x else some b

/-- First element of minimal measure in a list. -/
def minBy (f : α → Nat) (l : List α) : Option α :=
  l.foldl (minStep f) none

theorem minBy_go_some (f : α → Nat) :
    ∀ (l : List α) (b m : α), l.foldl (minStep f) (some b) = some m →
      (m ∈ l ∨ m = b) ∧ f m ≤ f b ∧ ∀ x ∈ l, f m ≤ f x := by
  intro l
  induction l with
  | nil =>
    intro b m h
    simp only [List.foldl] at h
    cases h
    exact ⟨Or.inr rfl, le_refl _, by intro x hx; cases hx⟩
  | cons x rest ih =>
    intro b m h
    simp only [List.foldl, minStep] at h
    by_cases hx : f x < f b
    · rw [if_pos hx] at h
      obtain ⟨hm, hle, hall⟩ := ih x m h
      refine ⟨?_, ?_, ?_⟩
      · rcases hm with hm | hm
        · exact Or.inl (List.mem_cons_of_mem _ hm)
        · exact Or.inl (hm ▸ List.mem_cons_self _ _)
      · exact le_trans hle (le_of_lt hx)
      · intro y hy
        rcases List.mem_cons.mp hy with hy | hy
        · exact hy ▸ hle
        · exact hall y hy
    · rw [if_neg hx] at h
      obtain ⟨hm, hle, hall⟩ := ih b m h
      refine ⟨?_, hle, ?_⟩
      · rcases hm with hm | hm
        · exact Or.inl (List.mem_cons_of_mem _ hm)
        · exact Or.inr hm
      · intro y hy
        rcases List.mem_cons.mp hy with hy | hy
        · exact hy ▸ le_trans hle (le_of_not_lt hx)
        · exact hall y hy

theorem minBy_go_ne_none (f : α → Nat) :
    ∀ (l : List α) (b : α), l.foldl (minStep f) (some b) ≠ none := by
  intro l
  induction l with
  | nil => intro b h; cases h
  | cons x rest ih =>
    intro b h
    simp only [List.foldl, minStep] at h
    by_cases hx : f x < f b
    · rw [if_pos hx] at h; exact ih x h
    · rw [if_neg hx] at h; exact ih b h

theorem minBy_mem_min (f : α → Nat) (l : List α) (m : α)
    (h : minBy f l = some m) : m ∈ l ∧ ∀ x ∈ l, f m ≤ f x := by
  cases l with
  | nil => cases h
  | cons x rest =>
    have h' : rest.foldl (minStep f) (some x) = some m := h
    obtain ⟨hm, hle, hall⟩ := minBy_go_some f rest x m h'
    refine ⟨?_, ?_⟩
    · rcases hm with hm | hm
      · exact List.mem_cons_of_mem _ hm
      · exact hm ▸ List.mem_cons_self _ _
    · intro y hy
      rcases List.mem_cons.mp hy with hy | hy
      · exact hy ▸ hle
      · exact hall y hy

theorem minBy_ne_none (f : α → Nat) (l : List α) (hl : l ≠ []) :
    minBy f l ≠ none := by
  cases l with
  | nil => exact absurd rfl hl
  | cons x rest => exact minBy_go_ne_none f rest x

/-- The oldest pending row of the store: ORDER BY created_at ASC over the
rows with status pending, LIMIT 1. -/
def oldestPending (store : List JobRow) : Option JobRow :=
  minBy JobRow.createdAt (store.filter (fun r => r.status == JStatus.pending))

/-- The row update applied to the claimed job by fetch_next_job
(database.py lines 285-294). -/
def claimUpdate (jid : Nat) (now : Nat) (r : JobRow) : JobRow :=
  if r.id = jid then
    { r with status := .processing, errorMessage := none, updatedAt := now }
  else r

/-- Embeds database.py lines 263-298 Database.fetch_next_job, sequentially:
select the oldest pending row; if none, roll back leaving the store
unchanged and return nothing; otherwise mark it processing, clear its error
message, and return the selected columns of its row. -/
def fetchNextJob (store : List JobRow) (now : Nat) :
    Option (List (String × ColValue)) × List JobRow :=
  match oldestPending store with
  | none => (none, store)
  | some j => (some (projectJob j), store.map (claimUpdate j.id now))

/-- A pending row whose stored columns include data the returned dictionary
does not carry. -/
def sampleRow : JobRow :=
  { id := 1, videoSource := "videos/talk.mp4", userId := none, stageId := none,
    speechId := none, language := none, modelSize := none,
    generateQuestions := none, status := .pending, transcript := none,
    transcriptMetadata := none, questions := none,
    errorMessage := some "old error", createdAt := 1, updatedAt := 1 }

/-- A row already processed, used for the empty-queue instance. -/
def doneRow : JobRow :=
  { sampleRow with id := 2, status := .completed }

/-- C2 counterexample: the dictionary fetch_next_job returns is not the full
row: the table has status, transcript and error_message columns, none of
which appear among the returned keys. -/
theorem c2_full_row_counterexample :
    (fetchNextJob [sampleRow] 5).1 = some (projectJob sampleRow) ∧
    "status" ∈ transcriptionJobsColumns ∧
    (projectJob sampleRow).lookup "status" = none ∧
    "error_message" ∈ transcriptionJobsColumns ∧
    (projectJob sampleRow).lookup "error_message" = none ∧
    "transcript" ∈ transcriptionJobsColumns ∧
    (projectJob sampleRow).lookup "transcript" = none := by
  decide

/-- C2 amended: fetch_next_job selects a pending row of minimal creation
time, marks exactly that row processing with its error message cleared,
leaves every other row unchanged, and returns the eight selected columns of
the chosen row with defaulted configuration; with no pending row it returns
nothing and the store is unchanged. -/
theorem c2_claim_next_amended (store : List JobRow) (now : Nat) :
    ((∀ r ∈ store, r.status ≠ .pending) → fetchNextJob store now = (none, store)) ∧
    ((∃ r ∈ store, r.status = .pending) → (fetchNextJob store now).1 ≠ none) ∧
    (∀ d store2, fetchNextJob store now = (some d, store2) →
      ∃ j ∈ store, j.status = .pending ∧
        (∀ r ∈ store, r.status = .pending → j.createdAt ≤ r.createdAt) ∧
        d = projectJob j ∧
        store2 = store.map (claimUpdate j.id now) ∧
        (∀ r ∈ store2, r.id = j.id → r.status = .processing ∧ r.errorMessage = none) ∧
        (∀ r ∈ store, r.id ≠ j.id → r ∈ store2)) := by
  refine ⟨?_, ?_, ?_⟩
  · intro hnone
    have hfilter : store.filter (fun r => r.status == JStatus.pending) = [] := by
      rw [List.filter_eq_nil_iff]
      intro r hr
      simpa using hnone r hr
    simp [fetchNextJob, oldestPending, hfilter, minBy]
  · intro ⟨r, hr, hrp⟩
    have hne : store.filter (fun r => r.status == JStatus.pending) ≠ [] := by
      intro hemp
      have := List.filter_eq_nil_iff.mp hemp r hr
      simp [hrp] at this
    have := minBy_ne_none JobRow.createdAt _ hne
    rcases hsel : oldestPending store with _ | j
    · exact absurd hsel this
    · simp [fetchNextJob, hsel]
  · intro d store2 hfetch
    rcases hsel : oldestPending store with _ | j
    · simp [fetchNextJob, hsel] at hfetch
    · simp only [fetchNextJob, hsel, Prod.mk.injEq, Option.some.injEq] at hfetch
      obtain ⟨hd, hstore2⟩ := hfetch
      obtain ⟨hjmem, hjmin⟩ := minBy_mem_min JobRow.createdAt _ j hsel
      have hjstore : j ∈ store := (List.mem_filter.mp hjmem).1
      have hjpend : j.status = .pending := by
        have := (List.mem_filter.mp hjmem).2
        simpa using this
      refine ⟨j, hjstore, hjpend, ?_, hd.symm, hstore2.symm, ?_, ?_⟩
      · intro r hr hrp
        exact hjmin r (List.mem_filter.mpr ⟨hr, by simp [hrp]⟩)
      · intro r hr hid
        rw [← hstore2] at hr
        obtain ⟨r0, hr0, hr0eq⟩ := List.mem_map.mp hr
        by_cases h0 : r0.id = j.id
        · rw [← hr0eq]
          simp [claimUpdate, h0]
        · rw [← hr0eq] at hid
          simp [claimUpdate, h0] at hid
      · intro r hr hid
        rw [← hstore2]
        have : claimUpdate j.id now r = r := by
          simp [claimUpdate, hid]
        exact this ▸ List.mem_map_of_mem _ hr

/-- Closed instances of c2_claim_next_amended: an all-terminal store is left
unchanged with nothing returned, and a store holding a pending row yields a
claim. -/
theorem c2_claim_next_witness :
    fetchNextJob [doneRow] 5 = (none, [doneRow]) ∧
    (fetchNextJob [sampleRow] 5).1 ≠ none :=
  ⟨(c2_claim_next_amended [doneRow] 5).1 (by decide),
   (c2_claim_next_amended [sampleRow] 5).2.1 ⟨sampleRow, List.mem_singleton_self _, rfl⟩⟩

/- ## Question generation (question_generator.py, main.py maybe_generate_questions) -/

/-- A raw question entry parsed from the generator output. -/
structure RawQ where
  question : String
  modelAnswer : Option String
deriving DecidableEq, Repr

/-- The ASCII single-quote character used by the fallback question template. -/
def quoteChar : String :=
  String.singleton (Char.ofNat 39)

/-- Embeds QuestionGenerator._generate_fallback_questions
(question_generator.py lines 161-184): split the text into sentences on
periods, keep the first numQuestions of them, skip sentences shorter than
ten characters, and build a template question per remaining sentence. -/
def fallbackQuestions (text : String) (numQuestions : Nat) : List RawQ :=
  let sentences :=
    (((splitChar '.' text.data).map (fun l => pyStrip ⟨l⟩)).filter (fun s => s != ""))
  ((sentences.take (min numQuestions sentences.length)).filter
      (fun s => !(s.length < 10 : Bool))).map
    (fun s =>
      { question := "다음 문장의 핵심 내용은 무엇인가요? " ++ quoteChar ++
          pyTake 50 s ++ "..." ++ quoteChar
        modelAnswer := some s })

/-- Embeds QuestionGenerator.generate_questions (question_generator.py lines
22-53): every exception around the external model call is caught and answered
with the fallback questions, so this call is total. -/
def generateQuestions (apiOutcome : Except PyExc (List RawQ)) (text : String) :
    List RawQ :=
  match apiOutcome with
  | .ok qs => qs
  | .error _ => fallbackQuestions text 5

/-- Embeds the sanitization loop of maybe_generate_questions
(main.py lines 341-354): drop entries with blank question text and null the
ungenerated optional fields. -/
def sanitizeQuestions (raw : List RawQ) : List SanQ :=
  raw.filterMap fun entry =>
    let questionText := pyStrip entry.question
    if questionText = "" then none
    else some { question := questionText, answer := none,
                modelAnswer := entry.modelAnswer, improvementTips := none,
                score := none }

/-- Truthiness of the speech_id field read from the job dictionary. -/
def speechTruthy : Option String → Bool
  | none => false
  | some s => s != ""

/-- Embeds main.py lines 334-361 maybe_generate_questions: nothing happens
without the flag or with blank source text; otherwise questions are generated
(totally) and, when a speech id is present and the sanitized list nonempty,
stored — a raised storage error propagates to the caller; an empty sanitized
list collapses to no questions. -/
def maybeGenerateQuestions (genFlag : Bool) (speechIdRaw : Option String)
    (apiOutcome : Except PyExc (List RawQ)) (storeOutcome : Except PyExc Unit)
    (sourceText : String) : Except PyExc (Option (List SanQ)) :=
  if !genFlag || (pyStrip sourceText == "") then .ok none
  else
    let sanitized := sanitizeQuestions (generateQuestions apiOutcome sourceText)
    match (if speechTruthy speechIdRaw && !sanitized.isEmpty
           then storeOutcome else .ok ()) with
    | .error e => .error e
    | .ok _ => .ok (if sanitized.isEmpty then none else some sanitized)

/- ## The orchestrator (main.py process_job) -/

/-- The stages of the process_job state machine. -/
inductive StageTag
  | getSpeech
  | resolveVideo
  | extractAudio
  | transcribe
  | resolveDoc
  | extractDoc
  | updateSpeech
  | genQuestions
  | persist
deriving DecidableEq, Repr

/-- Position of a stage in the pipeline order. -/
def stageIdx : StageTag → Nat
  | .getSpeech => 0
  | .resolveVideo => 1
  | .extractAudio => 2
  | .transcribe => 3
  | .resolveDoc => 4
  | .extractDoc => 5
  | .updateSpeech => 6
  | .genQuestions => 7
  | .persist => 8

/-- The speech row fields consulted by the pipeline. -/
structure Speech where
  documentUrl : Option String
deriving DecidableEq, Repr

/-- Outcomes of every external call process_job makes, in pipeline order.
Each Except field is the behaviour of one fallible call; the Boolean fields
mirror data read from the job dictionary. -/
structure Oracles where
  speechIdRaw : Option String
  uuidOk : Bool
  getSpeech : Except PyExc (Option Speech)
  resolveVideo : Except PyExc String
  extractAudio : Except PyExc String
  transcribe : Except PyExc String
  resolveDoc : Except PyExc (Option String)
  docPrimary : PrimaryResult
  docOcr : Except PyExc OcrResult
  updateSpeech : Except PyExc Unit
  genFlag : Bool
  genApi : Except PyExc (List RawQ)
  storeQuestions : Except PyExc Unit
  persist : Except PyExc Unit
deriving Repr

/-- The three temporary artifacts tracked for cleanup: video path, audio
path, document path. -/
abbrev Artifacts := Option String × Option String × Option String

/-- The values process_job carries into its success commit. -/
structure PipeOk where
  transcriptText : String
  combinedText : String
  finalTranscript : String
  questions : Option (List SanQ)
deriving DecidableEq, Repr

/-- Result of running the try-block of process_job: the stages entered, the
artifacts assigned, and either the success data or the escaping exception
tagged with the stage that raised it. -/
abbrev PipeResult := List StageTag × Artifacts × Except (StageTag × PyExc) PipeOk

/-- Question generation and the final commit (main.py lines 429-438). -/
def pipeGen (o : Oracles) (log : List StageTag) (arts : Artifacts)
    (combined text : String) : PipeResult :=
  match maybeGenerateQuestions o.genFlag o.speechIdRaw o.genApi o.storeQuestions
      combined with
  | .error e => (log ++ [.genQuestions], arts, .error (.genQuestions, e))
  | .ok qs =>
    match o.persist with
    | .error e => (log ++ [.genQuestions, .persist], arts, .error (.persist, e))
    | .ok _ =>
        (log ++ [.genQuestions, .persist], arts,
         .ok { transcriptText := text, combinedText := combined,
               finalTranscript := if combined = "" then text else combined,
               questions := qs })

/-- Fusion and the speech update (main.py lines 423-427), then pipeGen. -/
def pipeTail (o : Oracles) (uuidSet : Bool) (log : List StageTag)
    (v a : String) (docPath : Option String) (docText text : String) : PipeResult :=
  let arts : Artifacts := (some v, some a, docPath)
  let combined := combinedSourceText text docText
  if uuidSet then
    match o.updateSpeech with
    | .error e => (log ++ [.updateSpeech], arts, .error (.updateSpeech, e))
    | .ok _ => pipeGen o (log ++ [.updateSpeech]) arts combined text
  else pipeGen o log arts combined text

/-- Document resolution and extraction (main.py lines 402-421): a resolution
error is caught and degrades to empty document text; extraction is total. -/
def pipeDoc (o : Oracles) (rec : Option Speech) (uuidSet : Bool)
    (log : List StageTag) (v a text : String) : PipeResult :=
  match rec with
  | none => pipeTail o uuidSet log v a none "" text
  | some _ =>
    match o.resolveDoc with
    | .error _ => pipeTail o uuidSet (log ++ [.resolveDoc]) v a none "" text
    | .ok none => pipeTail o uuidSet (log ++ [.resolveDoc]) v a none "" text
    | .ok (some dp) =>
        pipeTail o uuidSet (log ++ [.resolveDoc, .extractDoc]) v a (some dp)
          (extractDocumentText o.docPrimary o.docOcr).fullText text

/-- Video resolution, audio extraction and transcription
(main.py lines 384-400), then pipeDoc. -/
def pipeFromVideo (o : Oracles) (rec : Option Speech) (uuidSet : Bool)
    (log : List StageTag) : PipeResult :=
  match o.resolveVideo with
  | .error e => (log ++ [.resolveVideo], (none, none, none), .error (.resolveVideo, e))
  | .ok v =>
    match o.extractAudio with
    | .error e =>
        (log ++ [.resolveVideo, .extractAudio], (some v, none, none),
         .error (.extractAudio, e))
    | .ok a =>
      match o.transcribe with
      | .error e =>
          (log ++ [.resolveVideo, .extractAudio, .transcribe], (some v, some a, none),
           .error (.transcribe, e))
      | .ok text =>
          pipeDoc o rec uuidSet
            (log ++ [.resolveVideo, .extractAudio, .transcribe]) v a text

/-- The whole try-block of process_job (main.py lines 373-439). The speech
lookup runs only for a truthy speech id; a UUID parse failure is caught and
leaves both the record and the uuid unset, while a database error from the
lookup escapes. -/
def pipelineRun (o : Oracles) : PipeResult :=
  if speechTruthy o.speechIdRaw && o.uuidOk then
    match o.getSpeech with
    | .error e => ([.getSpeech], (none, none, none), .error (.getSpeech, e))
    | .ok rec => pipeFromVideo o rec true [.getSpeech]
  else pipeFromVideo o none false []

/- ## Cleanup (main.py _cleanup_temp_artifacts) -/

/-- A fully resolved filesystem path, as a list of components. -/
abbrev FPath := List String

/-- Embeds main.py lines 29-58 _cleanup_temp_artifacts: for each present
candidate, resolve it (a resolution failure skips it); delete the resolved
path exactly when it lies under one of the allowed roots. The filesystem is
the list of existing resolved paths. -/
def cleanupTempArtifacts (resolveFn : String → Option FPath) (roots : List FPath)
    (cands : List (Option String)) (fs : List FPath) : List FPath :=
  cands.foldl
    (fun acc cand =>
      match cand with
      | none => acc
      | some c =>
        match resolveFn c with
        | none => acc
        | some r =>
          if roots.any (fun root => root.isPrefixOf r) then
            acc.filter (fun p => p != r)
          else acc)
    fs

/- ## Job commit and failure records (database.py mark_completed / mark_failed) -/

/-- Embeds database.py lines 735-761 Database.mark_completed. -/
def applyMarkCompleted (store : List JobRow) (jobId : Nat) (transcript : String)
    (questions : Option (List SanQ)) (now : Nat) : List JobRow :=
  store.map fun r =>
    if r.id = jobId then
      { r with status := .completed, transcript := some transcript,
               transcriptMetadata := some (), questions := questions,
               updatedAt := now }
    else r

/-- Embeds database.py lines 763-776 Database.mark_failed: the error message
is truncated to 2000 characters. -/
def applyMarkFailed (store : List JobRow) (jobId : Nat) (errorMessage : String)
    (now : Nat) : List JobRow :=
  store.map fun r =>
    if r.id = jobId then
      { r with status := .failed, errorMessage := some (pyTake 2000 errorMessage),
               updatedAt := now }
    else r

/-- Embeds main.py lines 364-446 process_job: run the pipeline; commit
success through mark_completed, map an escaping exception to mark_failed with
the exception class and message; run the artifact cleanup on both paths. -/
def processJob (o : Oracles) (jobId now : Nat) (store : List JobRow)
    (resolveFn : String → Option FPath) (roots : List FPath) (fs : List FPath) :
    List JobRow × List FPath :=
  match pipelineRun o with
  | (_, arts, .ok res) =>
      (applyMarkCompleted store jobId res.finalTranscript res.questions now,
       cleanupTempArtifacts resolveFn roots [arts.1, arts.2.1, arts.2.2] fs)
  | (_, arts, .error (_, e)) =>
      (applyMarkFailed store jobId (excMessage e) now,
       cleanupTempArtifacts resolveFn roots [arts.1, arts.2.1, arts.2.2] fs)

/- ## Stage-skipping lemmas for the pipeline -/

theorem pipeGen_stages (o : Oracles) (log : List StageTag) (arts : Artifacts)
    (combined text : String) (log2 : List StageTag) (arts2 : Artifacts)
    (st : StageTag) (e : PyExc)
    (h : pipeGen o log arts combined text = (log2, arts2, .error (st, e))) :
    7 ≤ stageIdx st ∧ ∃ tail, log2 = log ++ tail ∧
      ∀ t ∈ tail, 7 ≤ stageIdx t ∧ stageIdx t ≤ stageIdx st := by
  unfold pipeGen at h
  rcases hg : maybeGenerateQuestions o.genFlag o.speechIdRaw o.genApi o.storeQuestions
      combined with e0 | qs <;> rw [hg] at h
  · simp only [Prod.mk.injEq, Except.error.injEq] at h
    obtain ⟨hlog, -, hst, -⟩ := h
    subst hst
    exact ⟨le_refl _, [.genQuestions], hlog.symm, by decide⟩
  · rcases hp : o.persist with e1 | u <;> rw [hp] at h
    · simp only [Prod.mk.injEq, Except.error.injEq] at h
      obtain ⟨hlog, -, hst, -⟩ := h
      subst hst
      exact ⟨by decide, [.genQuestions, .persist], hlog.symm, by decide⟩
    · simp at h

theorem pipeTail_stages (o : Oracles) (uuidSet : Bool) (log : List StageTag)
    (v a : String) (docPath : Option String) (docText text : String)
    (log2 : List StageTag) (arts2 : Artifacts) (st : StageTag) (e : PyExc)
    (h : pipeTail o uuidSet log v a docPath docText text = (log2, arts2, .error (st, e))) :
    6 ≤ stageIdx st ∧ ∃ tail, log2 = log ++ tail ∧
      ∀ t ∈ tail, 6 ≤ stageIdx t ∧ stageIdx t ≤ stageIdx st := by
  simp only [pipeTail] at h
  by_cases hu : uuidSet = true
  · rw [if_pos hu] at h
    rcases hup : o.updateSpeech with e1 | u <;> rw [hup] at h
    · simp only [Prod.mk.injEq, Except.error.injEq] at h
      obtain ⟨hlog, -, hst, -⟩ := h
      subst hst
      exact ⟨le_refl _, [.updateSpeech], hlog.symm, by decide⟩
    · obtain ⟨h7, tail, hlog, hb⟩ := pipeGen_stages o _ _ _ _ _ _ _ _ h
      refine ⟨by omega, .updateSpeech :: tail, by simp [hlog], ?_⟩
      intro t ht
      rcases List.mem_cons.mp ht with ht | ht
      · subst ht
        exact ⟨le_refl _, le_trans (by decide) h7⟩
      · obtain ⟨hb1, hb2⟩ := hb t ht
        exact ⟨by omega, hb2⟩
  · rw [if_neg hu] at h
    obtain ⟨h7, tail, hlog, hb⟩ := pipeGen_stages o _ _ _ _ _ _ _ _ h
    refine ⟨by omega, tail, hlog, ?_⟩
    intro t ht
    obtain ⟨hb1, hb2⟩ := hb t ht
    exact ⟨by omega, hb2⟩

theorem pipeDoc_stages (o : Oracles) (rec : Option Speech) (uuidSet : Bool)
    (log : List StageTag) (v a text : String)
    (log2 : List StageTag) (arts2 : Artifacts) (st : StageTag) (e : PyExc)
    (h : pipeDoc o rec uuidSet log v a text = (log2, arts2, .error (st, e))) :
    4 ≤ stageIdx st ∧ ∃ tail, log2 = log ++ tail ∧
      ∀ t ∈ tail, 4 ≤ stageIdx t ∧ stageIdx t ≤ stageIdx st := by
  unfold pipeDoc at h
  rcases rec with _ | s
  · obtain ⟨h6, tail, hlog, hb⟩ := pipeTail_stages o _ _ _ _ _ _ _ _ _ _ _ h
    refine ⟨by omega, tail, hlog, ?_⟩
    intro t ht
    obtain ⟨hb1, hb2⟩ := hb t ht
    exact ⟨by omega, hb2⟩
  · rcases hrd : o.resolveDoc with e0 | dp <;> rw [hrd] at h
    · obtain ⟨h6, tail, hlog, hb⟩ := pipeTail_stages o _ _ _ _ _ _ _ _ _ _ _ h
      refine ⟨by omega, .resolveDoc :: tail, by simp [hlog], ?_⟩
      intro t ht
      rcases List.mem_cons.mp ht with ht | ht
      · subst ht
        exact ⟨le_refl _, le_trans (by decide) h6⟩
      · obtain ⟨hb1, hb2⟩ := hb t ht
        exact ⟨by omega, hb2⟩
    · rcases dp with _ | p
      · obtain ⟨h6, tail, hlog, hb⟩ := pipeTail_stages o _ _ _ _ _ _ _ _ _ _ _ h
        refine ⟨by omega, .resolveDoc :: tail, by simp [hlog], ?_⟩
        intro t ht
        rcases List.mem_cons.mp ht with ht | ht
        · subst ht
          exact ⟨le_refl _, le_trans (by decide) h6⟩
        · obtain ⟨hb1, hb2⟩ := hb t ht
          exact ⟨by omega, hb2⟩
      · obtain ⟨h6, tail, hlog, hb⟩ := pipeTail_stages o _ _ _ _ _ _ _ _ _ _ _ h
        refine ⟨by omega, .resolveDoc :: .extractDoc :: tail, by simp [hlog], ?_⟩
        intro t ht
        rcases List.mem_cons.mp ht with ht | ht
        · subst ht
          exact ⟨le_refl _, le_trans (by decide) h6⟩
        · rcases List.mem_cons.mp ht with ht | ht
          · subst ht
            exact ⟨by decide, le_trans (by decide) h6⟩
          · obtain ⟨hb1, hb2⟩ := hb t ht
            exact ⟨by omega, hb2⟩

theorem pipeFromVideo_stages (o : Oracles) (rec : Option Speech) (uuidSet : Bool)
    (log : List StageTag)
    (log2 : List StageTag) (arts2 : Artifacts) (st : StageTag) (e : PyExc)
    (h : pipeFromVideo o rec uuidSet log = (log2, arts2, .error (st, e))) :
    1 ≤ stageIdx st ∧ ∃ tail, log2 = log ++ tail ∧
      ∀ t ∈ tail, 1 ≤ stageIdx t ∧ stageIdx t ≤ stageIdx st := by
  unfold pipeFromVideo at h
  rcases hrv : o.resolveVideo with e0 | v <;> rw [hrv] at h
  · simp only [Prod.mk.injEq, Except.error.injEq] at h
    obtain ⟨hlog, -, hst, -⟩ := h
    subst hst
    exact ⟨le_refl _, [.resolveVideo], hlog.symm, by decide⟩
  · rcases hea : o.extractAudio with e1 | a <;> rw [hea] at h
    · simp only [Prod.mk.injEq, Except.error.injEq] at h
      obtain ⟨hlog, -, hst, -⟩ := h
      subst hst
      exact ⟨by decide, [.resolveVideo, .extractAudio], hlog.symm, by decide⟩
    · rcases htr : o.transcribe with e2 | text <;> rw [htr] at h
      · simp only [Prod.mk.injEq, Except.error.injEq] at h
        obtain ⟨hlog, -, hst, -⟩ := h
        subst hst
        exact ⟨by decide, [.resolveVideo, .extractAudio, .transcribe], hlog.symm,
          by decide⟩
      · obtain ⟨h4, tail, hlog, hb⟩ := pipeDoc_stages o _ _ _ _ _ _ _ _ _ _ h
        refine ⟨by omega, [.resolveVideo, .extractAudio, .transcribe] ++ tail,
          by simp [hlog], ?_⟩
        intro t ht
        rcases List.mem_append.mp ht with ht | ht
        · fin_cases ht
          · exact ⟨by decide, le_trans (by decide) h4⟩
          · exact ⟨by decide, le_trans (by decide) h4⟩
          · exact ⟨by decide, le_trans (by decide) h4⟩
        · obtain ⟨hb1, hb2⟩ := hb t ht
          exact ⟨by omega, hb2⟩

theorem pipelineRun_stages (o : Oracles)
    (log : List StageTag) (arts : Artifacts) (st : StageTag) (e : PyExc)
    (hrun : pipelineRun o = (log, arts, .error (st, e))) :
    ∀ t ∈ log, stageIdx t ≤ stageIdx st := by
  unfold pipelineRun at hrun
  by_cases hsp : (speechTruthy o.speechIdRaw && o.uuidOk) = true
  · rw [if_pos hsp] at hrun
    rcases hgs : o.getSpeech with e0 | rec <;> rw [hgs] at hrun
    · simp only [Prod.mk.injEq, Except.error.injEq] at hrun
      obtain ⟨hlog, -, hst, -⟩ := hrun
      subst hst
      intro t ht
      rw [← hlog] at ht
      simp only [List.mem_singleton] at ht
      subst ht
      exact le_refl _
    · obtain ⟨h1, tail, hlog, hb⟩ := pipeFromVideo_stages o _ _ _ _ _ _ _ hrun
      intro t ht
      rw [hlog] at ht
      rcases List.mem_append.mp ht with ht | ht
      · simp only [List.mem_singleton] at ht
        subst ht
        exact le_trans (by decide) h1
      · exact (hb t ht).2
  · rw [if_neg hsp] at hrun
    obtain ⟨h1, tail, hlog, hb⟩ := pipeFromVideo_stages o _ _ _ _ _ _ _ hrun
    intro t ht
    rw [hlog] at ht
    simp only [List.nil_append] at ht
    exact (hb t ht).2

/- ## C3: failure handling -/

/-- C3: whenever the pipeline raises at any stage, the job row is marked
failed with error message equal to the exception class and message truncated
to 2000 characters, hence nonempty and bounded; its transcript column keeps
its previous value (no transcript is written), every other row is untouched,
and no stage after the raising one was entered. -/
theorem c3_failure_handling (o : Oracles) (jobId now : Nat) (store : List JobRow)
    (resolveFn : String → Option FPath) (roots : List FPath) (fs : List FPath)
    (log : List StageTag) (arts : Artifacts) (st : StageTag) (e : PyExc)
    (hrun : pipelineRun o = (log, arts, .error (st, e))) :
    (∀ r ∈ (processJob o jobId now store resolveFn roots fs).1,
      (r.id = jobId →
        r.status = .failed ∧
        r.errorMessage = some (pyTake 2000 (excMessage e)) ∧
        (∀ m, r.errorMessage = some m → m ≠ "" ∧ m.length ≤ 2000) ∧
        ∃ r0 ∈ store, r0.id = jobId ∧ r.transcript = r0.transcript) ∧
      (r.id ≠ jobId → r ∈ store)) ∧
    (∀ t ∈ log, stageIdx t ≤ stageIdx st) := by
  have hmsg2 : 2 ≤ (excMessage e).length := by
    have h1 : excMessage e = e.name ++ ": " ++ e.msg := rfl
    rw [h1, String.length_append, String.length_append]
    have h2 : (": " : String).length = 2 := rfl
    omega
  have hlen : (pyTake 2000 (excMessage e)).length = min 2000 (excMessage e).length := by
    have h1 : (pyTake 2000 (excMessage e)).length =
        ((excMessage e).data.take 2000).length := rfl
    have h2 : (excMessage e).length = (excMessage e).data.length := rfl
    rw [h1, h2, List.length_take]
  have hps : (processJob o jobId now store resolveFn roots fs).1 =
      applyMarkFailed store jobId (excMessage e) now := by
    unfold processJob
    rw [hrun]
  constructor
  · intro r hr
    rw [hps] at hr
    simp only [applyMarkFailed, List.mem_map] at hr
    obtain ⟨r0, hr0, hr0eq⟩ := hr
    by_cases h0 : r0.id = jobId
    · rw [if_pos h0] at hr0eq
      constructor
      · intro hid
        rw [← hr0eq]
        refine ⟨rfl, rfl, ?_, r0, hr0, h0, rfl⟩
        intro m hm
        have hm' : m = pyTake 2000 (excMessage e) := (Option.some.inj hm).symm
        subst hm'
        constructor
        · intro hemp
          rw [hemp] at hlen
          have h0len : ("" : String).length = 0 := rfl
          omega
        · omega
      · intro hid
        rw [← hr0eq] at hid
        exact absurd h0 hid
    · rw [if_neg h0] at hr0eq
      subst hr0eq
      exact ⟨fun hid => absurd hid h0, fun _ => hr0⟩
  · exact pipelineRun_stages o log arts st e hrun

/-- A bundle of oracle outcomes whose video resolution raises. -/
def c3Oracles : Oracles :=
  { speechIdRaw := none, uuidOk := true, getSpeech := .ok none,
    resolveVideo := .error ⟨"RuntimeError", "download failed"⟩,
    extractAudio := .ok "a", transcribe := .ok "t", resolveDoc := .ok none,
    docPrimary := ⟨false, none, none⟩, docOcr := .error ⟨"E", "x"⟩,
    updateSpeech := .ok (), genFlag := false, genApi := .ok [],
    storeQuestions := .ok (), persist := .ok () }

/-- The failed row produced for sampleRow when c3Oracles raise. -/
def c3FailedRow : JobRow :=
  { sampleRow with
    status := .failed
    errorMessage :=
      some (pyTake 2000 (excMessage ⟨"RuntimeError", "download failed"⟩))
    updatedAt := 9 }

/-- Closed instance of c3_failure_handling: the concrete failing run marks
the row failed with a nonempty bounded message and an unchanged transcript. -/
theorem c3_failure_witness :
    c3FailedRow.status = JStatus.failed ∧
    c3FailedRow.errorMessage =
      some (pyTake 2000 (excMessage ⟨"RuntimeError", "download failed"⟩)) ∧
    pyTake 2000 (excMessage ⟨"RuntimeError", "download failed"⟩) ≠ "" ∧
    c3FailedRow.transcript = sampleRow.transcript := by
  have h := (c3_failure_handling c3Oracles 1 9 [sampleRow] (fun _ => none) [] []
    [.resolveVideo] (none, none, none) .resolveVideo
    ⟨"RuntimeError", "download failed"⟩ rfl).1 c3FailedRow (by decide)
  obtain ⟨hmain, -⟩ := h
  obtain ⟨hstatus, herr, hb, -⟩ := hmain (by decide)
  exact ⟨hstatus, herr, (hb _ herr).1, rfl⟩

/- ## C4: cleanup containment -/

theorem cleanup_cons (resolveFn : String → Option FPath) (roots : List FPath)
    (c : Option String) (rest : List (Option String)) (fs : List FPath) :
    cleanupTempArtifacts resolveFn roots (c :: rest) fs =
      cleanupTempArtifacts resolveFn roots rest
        (match c with
         | none => fs
         | some cc =>
           match resolveFn cc with
           | none => fs
           | some r =>
             if roots.any (fun root => root.isPrefixOf r) then
               fs.filter (fun p => p != r)
             else fs) := rfl

theorem cleanup_only_scratch (resolveFn : String → Option FPath)
    (roots : List FPath) :
    ∀ (cands : List (Option String)) (fs : List FPath) (p : FPath),
      p ∈ fs → p ∉ cleanupTempArtifacts resolveFn roots cands fs →
      ∃ root ∈ roots, root.isPrefixOf p = true := by
  intro cands
  induction cands with
  | nil =>
    intro fs p hp hnp
    exact absurd hp hnp
  | cons c rest ih =>
    intro fs p hp hnp
    rw [cleanup_cons] at hnp
    rcases c with _ | cc
    · exact ih fs p hp hnp
    · dsimp only at hnp
      rcases hres : resolveFn cc with _ | r
      · rw [hres] at hnp
        exact ih fs p hp hnp
      · rw [hres] at hnp
        dsimp only at hnp
        by_cases hany : roots.any (fun root => root.isPrefixOf r) = true
        · rw [if_pos hany] at hnp
          by_cases hpf : p ∈ fs.filter (fun q => q != r)
          · exact ih _ p hpf hnp
          · have hpr : p = r := by
              by_contra hne
              exact hpf (List.mem_filter.mpr ⟨hp, by simp [hne]⟩)
            obtain ⟨root, hroot, hpre⟩ := List.any_eq_true.mp hany
            exact ⟨root, hroot, hpr ▸ hpre⟩
        · rw [if_neg hany] at hnp
          exact ih fs p hp hnp

theorem cleanup_preserves_nonscratch (resolveFn : String → Option FPath)
    (roots : List FPath) :
    ∀ (cands : List (Option String)) (fs : List FPath) (p : FPath),
      p ∈ fs → (∀ root ∈ roots, root.isPrefixOf p = false) →
      p ∈ cleanupTempArtifacts resolveFn roots cands fs := by
  intro cands
  induction cands with
  | nil =>
    intro fs p hp _
    exact hp
  | cons c rest ih =>
    intro fs p hp hroots
    rw [cleanup_cons]
    rcases c with _ | cc
    · exact ih fs p hp hroots
    · dsimp only
      rcases hres : resolveFn cc with _ | r
      · exact ih fs p hp hroots
      · dsimp only
        by_cases hany : roots.any (fun root => root.isPrefixOf r) = true
        · rw [if_pos hany]
          refine ih _ p (List.mem_filter.mpr ⟨hp, ?_⟩) hroots
          have hpr : p ≠ r := by
            intro heq
            obtain ⟨root, hroot, hpre⟩ := List.any_eq_true.mp hany
            rw [← heq] at hpre
            rw [hroots root hroot] at hpre
            cases hpre
          simp [hpr]
        · rw [if_neg hany]
          exact ih fs p hp hroots

/-- C4: cleanup runs on both exit paths of process_job with the artifacts the
pipeline assigned, and it deletes only resolved paths lying under one of the
configured scratch roots: a path outside every root is never deleted. -/
theorem c4_cleanup_containment (o : Oracles) (jobId now : Nat)
    (store : List JobRow) (resolveFn : String → Option FPath)
    (roots : List FPath) (fs : List FPath) :
    (processJob o jobId now store resolveFn roots fs).2 =
      cleanupTempArtifacts resolveFn roots
        [(pipelineRun o).2.1.1, (pipelineRun o).2.1.2.1, (pipelineRun o).2.1.2.2]
        fs ∧
    (∀ p ∈ fs, p ∉ (processJob o jobId now store resolveFn roots fs).2 →
      ∃ root ∈ roots, root.isPrefixOf p = true) ∧
    (∀ p ∈ fs, (∀ root ∈ roots, root.isPrefixOf p = false) →
      p ∈ (processJob o jobId now store resolveFn roots fs).2) := by
  have hsnd : (processJob o jobId now store resolveFn roots fs).2 =
      cleanupTempArtifacts resolveFn roots
        [(pipelineRun o).2.1.1, (pipelineRun o).2.1.2.1, (pipelineRun o).2.1.2.2]
        fs := by
    rcases hpr : pipelineRun o with ⟨log, arts, out⟩
    rcases out with err | res
    · rcases err with ⟨st, e⟩
      unfold processJob
      rw [hpr]
    · unfold processJob
      rw [hpr]
  refine ⟨hsnd, ?_, ?_⟩
  · intro p hp hnp
    rw [hsnd] at hnp
    exact cleanup_only_scratch resolveFn roots _ fs p hp hnp
  · intro p hp hroots
    rw [hsnd]
    exact cleanup_preserves_nonscratch resolveFn roots _ fs p hp hroots

/-- A bundle of oracle outcomes for a fully successful run. -/
def c4Oracles : Oracles :=
  { speechIdRaw := none, uuidOk := true, getSpeech := .ok none,
    resolveVideo := .ok "dl/1_v.mp4", extractAudio := .ok "au/1_v.mp3",
    transcribe := .ok "hello", resolveDoc := .ok none,
    docPrimary := ⟨false, none, none⟩, docOcr := .error ⟨"E", "x"⟩,
    updateSpeech := .ok (), genFlag := false, genApi := .ok [],
    storeQuestions := .ok (), persist := .ok () }

/-- Path resolution for the cleanup instance. -/
def c4Resolve : String → Option FPath :=
  fun s =>
    if s = "dl/1_v.mp4" then some ["dl", "1_v.mp4"]
    else if s = "au/1_v.mp3" then some ["au", "1_v.mp3"]
    else none

/-- Closed instance of c4_cleanup_containment: a pre-existing file outside
the scratch roots survives the cleanup of a successful run. -/
theorem c4_cleanup_witness :
    (["home", "video.mp4"] : FPath) ∈
      (processJob c4Oracles 1 9 [sampleRow] c4Resolve [["dl"], ["au"]]
        [["dl", "1_v.mp4"], ["au", "1_v.mp3"], ["home", "video.mp4"]]).2 :=
  (c4_cleanup_containment c4Oracles 1 9 [sampleRow] c4Resolve [["dl"], ["au"]]
      [["dl", "1_v.mp4"], ["au", "1_v.mp3"], ["home", "video.mp4"]]).2.2
    ["home", "video.mp4"] (by decide) (by decide)

/- ## C6: question-generation failure is fatal in process_job -/

/-- A pending job row asking for question generation. -/
def c6Row : JobRow :=
  { sampleRow with speechId := some "3f2a", generateQuestions := some true }

/-- Oracle outcomes where every stage succeeds except storing the generated
questions, which raises a database error inside maybe_generate_questions. -/
def c6Oracles : Oracles :=
  { speechIdRaw := some "3f2a", uuidOk := true, getSpeech := .ok (some ⟨none⟩),
    resolveVideo := .ok "dl/1_v.mp4", extractAudio := .ok "au/1_v.mp3",
    transcribe := .ok "hello world", resolveDoc := .ok none,
    docPrimary := ⟨false, none, none⟩, docOcr := .error ⟨"E", "x"⟩,
    updateSpeech := .ok (), genFlag := true,
    genApi := .ok [⟨"What is the main claim of the talk", some "The main claim"⟩],
    storeQuestions := .error ⟨"OperationalError", "connection refused"⟩,
    persist := .ok () }

/-- C6 evaluated at the failing input: an exception escaping the question
generation step is caught by the top-level handler of process_job, which
marks the job failed; the transcript is never persisted and the job does not
reach completed, contradicting the claimed non-fatal contract. -/
theorem c6_generation_failure_fatal :
    (processJob c6Oracles 1 9 [c6Row] (fun _ => none) [] []).1 =
      [{ c6Row with
          status := .failed
          errorMessage := some (pyTake 2000
            (excMessage ⟨"OperationalError", "connection refused"⟩))
          updatedAt := 9 }] ∧
    ∀ r ∈ (processJob c6Oracles 1 9 [c6Row] (fun _ => none) [] []).1,
      r.status ≠ JStatus.completed ∧ r.transcript = none := by
  decide

/- ## C1: concurrent claiming (database.py fetch_next_job under row locks) -/

/-- A transcription_jobs row as seen by the claim transaction, together with
the row lock state maintained by the database: lockedBy records which
transaction currently holds the FOR UPDATE lock on the row. -/
structure QJob where
  id : Nat
  createdAt : Nat
  status : JStatus
  errorMessage : Option String
  lockedBy : Option Nat
deriving DecidableEq, Repr

/-- A row is eligible for the SELECT of fetch_next_job when it is pending
and not locked by another claimant (FOR UPDATE SKIP LOCKED). -/
def selectable (j : QJob) : Bool :=
  j.status == JStatus.pending && j.lockedBy == none

/-- The row the SELECT of fetch_next_job locks: the oldest selectable row. -/
def fetchCandidate (jobs : List QJob) : Option QJob :=
  minBy QJob.createdAt (jobs.filter selectable)

/-- Acquire the row lock for worker w on the row with the given id. -/
def lockJob (jobs : List QJob) (jid w : Nat) : List QJob :=
  jobs.map fun j => if j.id = jid then { j with lockedBy := some w } else j

/-- The committed UPDATE of fetch_next_job: mark the row processing, clear
its error message, release the row lock. -/
def claimJob (jobs : List QJob) (jid : Nat) : List QJob :=
  jobs.map fun j =>
    if j.id = jid then
      { j with status := .processing, errorMessage := none, lockedBy := none }
    else j

/-- Global state of the store under concurrent claimers: the rows plus the
set of in-flight claim transactions, each holding one locked row. -/
structure CState where
  jobs : List QJob
  holding : List (Nat × Nat)
deriving DecidableEq, Repr

/-- The row id locked by worker w, if any. -/
def lookupW (holding : List (Nat × Nat)) (w : Nat) : Option Nat :=
  (holding.find? (fun p => p.1 == w)).map Prod.snd

/-- Events of the claim protocol: a successful SELECT FOR UPDATE SKIP LOCKED,
an empty SELECT followed by rollback, and the UPDATE plus COMMIT. -/
inductive CEvent
  | select (w jid : Nat)
  | selectNone (w : Nat)
  | commit (w jid : Nat)
deriving DecidableEq, Repr

/-- Interleaved small-step semantics of concurrent fetch_next_job calls.
A worker with no transaction in flight may lock the oldest selectable row or
observe that none exists; a worker holding a locked row commits the update,
releasing the lock. -/
inductive CStep : CState → CEvent → CState → Prop
  | select (s : CState) (w : Nat) (j : QJob)
      (hidle : lookupW s.holding w = none)
      (hsel : fetchCandidate s.jobs = some j) :
      CStep s (.select w j.id) ⟨lockJob s.jobs j.id w, (w, j.id) :: s.holding⟩
  | selectNone (s : CState) (w : Nat)
      (hidle : lookupW s.holding w = none)
      (hnone : fetchCandidate s.jobs = none) :
      CStep s (.selectNone w) s
  | commit (s : CState) (w jid : Nat)
      (hhold : lookupW s.holding w = some jid) :
      CStep s (.commit w jid)
        ⟨claimJob s.jobs jid, s.holding.filter (fun p => p.1 != w)⟩

/-- Reflexive-transitive closure of CStep along an event list. -/
inductive CTrace : CState → List CEvent → CState → Prop
  | nil (s : CState) : CTrace s [] s
  | cons {s s2 s3 : CState} {e : CEvent} {es : List CEvent} :
      CStep s e s2 → CTrace s2 es s3 → CTrace s (e :: es) s3

/-- Number of successful claims of the given job in a trace. -/
def commitCount (es : List CEvent) (jid : Nat) : Nat :=
  es.countP fun e =>
    match e with
    | .commit _ j => j == jid
    | _ => false

/-- The status of the row with the given id. -/
def jobStatus (jobs : List QJob) (jid : Nat) : Option JStatus :=
  (jobs.find? (fun x => x.id == jid)).map QJob.status

/-- State coherence: row ids are unique, and every in-flight transaction
holds the lock of a pending row it previously selected. -/
def StoreInv (s : CState) : Prop :=
  (s.jobs.map QJob.id).Nodup ∧
  ∀ w jid, (w, jid) ∈ s.holding →
    ∃ j ∈ s.jobs, j.id = jid ∧ j.lockedBy = some w ∧ j.status = .pending

theorem lookupW_mem (holding : List (Nat × Nat)) (w jid : Nat)
    (h : lookupW holding w = some jid) : (w, jid) ∈ holding := by
  unfold lookupW at h
  rcases hf : holding.find? (fun p => p.1 == w) with _ | p <;> rw [hf] at h
  · cases h
  · have hp := List.find?_some hf
    have hmem := List.mem_of_find?_eq_some hf
    have hw : p.1 = w := by simpa using hp
    have hj : p.2 = jid := by simpa using h
    have hpe : p = (w, jid) := by
      rcases p with ⟨a, b⟩
      simp_all
    rw [← hpe]
    exact hmem

theorem nodup_inj (jobs : List QJob) (hnd : (jobs.map QJob.id).Nodup)
    (j1 j2 : QJob) (h1 : j1 ∈ jobs) (h2 : j2 ∈ jobs) (hid : j1.id = j2.id) :
    j1 = j2 :=
  List.inj_on_of_nodup_map hnd h1 h2 hid

theorem find?_eq_of_mem_nodup (jobs : List QJob)
    (hnd : (jobs.map QJob.id).Nodup) (j : QJob) (hj : j ∈ jobs) :
    jobs.find? (fun x => x.id == j.id) = some j := by
  induction jobs with
  | nil => cases hj
  | cons x rest ih =>
    have hnd' : (rest.map QJob.id).Nodup := by
      simp only [List.map_cons, List.nodup_cons] at hnd
      exact hnd.2
    by_cases hx : x.id = j.id
    · have hxj : x = j := by
        rcases List.mem_cons.mp hj with h | h
        · exact h.symm
        · exact nodup_inj (x :: rest) hnd x j (List.mem_cons_self x rest)
            (List.mem_cons_of_mem x h) hx
      rw [List.find?_cons_of_pos _ (by simp [hx]), hxj]
    · rw [List.find?_cons_of_neg _ (by simp [hx])]
      apply ih hnd'
      rcases List.mem_cons.mp hj with h | h
      · exact absurd (h ▸ rfl : x.id = j.id) hx
      · exact h

theorem lockJob_map_id (jobs : List QJob) (jid w : Nat) :
    (lockJob jobs jid w).map QJob.id = jobs.map QJob.id := by
  unfold lockJob
  rw [List.map_map]
  apply List.map_congr_left
  intro j _
  by_cases h : j.id = jid <;> simp [h]

theorem claimJob_map_id (jobs : List QJob) (jid : Nat) :
    (claimJob jobs jid).map QJob.id = jobs.map QJob.id := by
  unfold claimJob
  rw [List.map_map]
  apply List.map_congr_left
  intro j _
  by_cases h : j.id = jid <;> simp [h]

theorem find?_map_presid (jobs : List QJob) (f : QJob → QJob)
    (hid : ∀ j, (f j).id = j.id) (jid : Nat) :
    (jobs.map f).find? (fun x => x.id == jid) =
      (jobs.find? (fun x => x.id == jid)).map f := by
  rw [List.find?_map]
  have hfun : ((fun x => x.id == jid) ∘ f) = (fun x : QJob => x.id == jid) := by
    funext x
    show ((f x).id == jid) = (x.id == jid)
    rw [hid x]
  rw [hfun]

theorem option_map_status (o : Option QJob) (f : QJob → QJob)
    (h : ∀ j, o = some j → QJob.status (f j) = QJob.status j) :
    (o.map f).map QJob.status = o.map QJob.status := by
  cases o with
  | none => rfl
  | some j => simp [h j rfl]

theorem jobStatus_lockJob (jobs : List QJob) (jid0 w jid : Nat) :
    jobStatus (lockJob jobs jid0 w) jid = jobStatus jobs jid := by
  unfold jobStatus lockJob
  rw [find?_map_presid _ _ (fun j => by by_cases h : j.id = jid0 <;> simp [h])]
  apply option_map_status
  intro j _
  by_cases h : j.id = jid0 <;> simp [h]

theorem jobStatus_claimJob_other (jobs : List QJob) (jid0 jid : Nat)
    (hne : jid ≠ jid0) :
    jobStatus (claimJob jobs jid0) jid = jobStatus jobs jid := by
  unfold jobStatus claimJob
  rw [find?_map_presid _ _ (fun j => by by_cases h : j.id = jid0 <;> simp [h])]
  apply option_map_status
  intro j hfind
  have hjid : j.id = jid := by simpa using List.find?_some hfind
  have hj : ¬ j.id = jid0 := by rw [hjid]; exact hne
  simp [hj]

theorem jobStatus_claimJob_self (jobs : List QJob) (jid : Nat) (j : QJob)
    (hfind : jobs.find? (fun x => x.id == jid) = some j) :
    jobStatus (claimJob jobs jid) jid = some JStatus.processing := by
  unfold jobStatus claimJob
  rw [find?_map_presid _ _ (fun j => by by_cases h : j.id = jid <;> simp [h]), hfind]
  have hjid : j.id = jid := by simpa using List.find?_some hfind
  simp [hjid]

theorem fetchCandidate_spec (jobs : List QJob) (j : QJob)
    (h : fetchCandidate jobs = some j) :
    j ∈ jobs ∧ j.status = JStatus.pending ∧ j.lockedBy = none := by
  obtain ⟨hm, -⟩ := minBy_mem_min QJob.createdAt _ j h
  have h1 := List.mem_filter.mp hm
  have h2 := h1.2
  simp only [selectable, Bool.and_eq_true, beq_iff_eq] at h2
  exact ⟨h1.1, h2.1, h2.2⟩

theorem step_preserves_inv {s : CState} {e : CEvent} {s2 : CState}
    (hstep : CStep s e s2) (hinv : StoreInv s) : StoreInv s2 := by
  obtain ⟨hnd, hhold⟩ := hinv
  cases hstep with
  | select w j hidle hsel =>
    obtain ⟨hjmem, hjpend, hjunlock⟩ := fetchCandidate_spec _ _ hsel
    constructor
    · rw [show (⟨lockJob s.jobs j.id w, (w, j.id) :: s.holding⟩ : CState).jobs =
        lockJob s.jobs j.id w from rfl, lockJob_map_id]
      exact hnd
    · intro w' jid' hmem
      rcases List.mem_cons.mp hmem with hmem | hmem
      · simp only [Prod.mk.injEq] at hmem
        obtain ⟨hw, hjid⟩ := hmem
        refine ⟨{ j with lockedBy := some w }, ?_, by rw [hjid], by rw [hw], hjpend⟩
        have himg : (fun x => if x.id = j.id then { x with lockedBy := some w } else x) j
            = { j with lockedBy := some w } := by
          simp
        exact himg ▸ List.mem_map_of_mem _ hjmem
      · obtain ⟨j', hj'mem, hj'id, hj'lock, hj'pend⟩ := hhold w' jid' hmem
        have hne : ¬ j'.id = j.id := by
          intro heq
          have hj'j : j' = j := nodup_inj _ hnd _ _ hj'mem hjmem heq
          rw [hj'j, hjunlock] at hj'lock
          cases hj'lock
        refine ⟨j', ?_, hj'id, hj'lock, hj'pend⟩
        have himg : (fun x => if x.id = j.id then { x with lockedBy := some w } else x) j'
            = j' := by
          simp [hne]
        exact himg ▸ List.mem_map_of_mem _ hj'mem
  | selectNone w hidle hnone =>
    exact ⟨hnd, hhold⟩
  | commit w jid hhold2 =>
    have hpairmem : (w, jid) ∈ s.holding := lookupW_mem _ _ _ hhold2
    obtain ⟨j, hjmem, hjid, hjlock, hjpend⟩ := hhold w jid hpairmem
    constructor
    · rw [show (⟨claimJob s.jobs jid, s.holding.filter (fun p => p.1 != w)⟩ :
        CState).jobs = claimJob s.jobs jid from rfl, claimJob_map_id]
      exact hnd
    · intro w' jid' hmem
      have hmem2 := List.mem_filter.mp hmem
      have hwne : w' ≠ w := by simpa using hmem2.2
      obtain ⟨j', hj'mem, hj'id, hj'lock, hj'pend⟩ := hhold w' jid' hmem2.1
      have hne : ¬ j'.id = jid := by
        intro heq
        have hj'j : j' = j := nodup_inj _ hnd _ _ hj'mem hjmem (by rw [heq, hjid])
        have h1 : j.lockedBy = some w' := hj'j ▸ hj'lock
        rw [hjlock] at h1
        exact hwne (Option.some.inj h1).symm
      refine ⟨j', ?_, hj'id, hj'lock, hj'pend⟩
      have himg : (fun x => if x.id = jid then
          { x with status := JStatus.processing, errorMessage := none,
                   lockedBy := none } else x) j' = j' := by
        simp [hne]
      exact himg ▸ List.mem_map_of_mem _ hj'mem

theorem commit_inv {s : CState} {w jid : Nat} {s2 : CState}
    (hstep : CStep s (.commit w jid) s2) :
    lookupW s.holding w = some jid ∧
    s2 = ⟨claimJob s.jobs jid, s.holding.filter (fun p => p.1 != w)⟩ := by
  cases hstep
  exact ⟨by assumption, rfl⟩

theorem commit_facts {s : CState} {w jid : Nat} {s2 : CState}
    (hstep : CStep s (.commit w jid) s2) (hinv : StoreInv s) :
    jobStatus s2.jobs jid = some JStatus.processing ∧
    jobStatus s.jobs jid = some JStatus.pending := by
  obtain ⟨hnd, hhold⟩ := hinv
  obtain ⟨hhold2, hs2⟩ := commit_inv hstep
  have hpairmem : (w, jid) ∈ s.holding := lookupW_mem _ _ _ hhold2
  obtain ⟨j, hjmem, hjid, hjlock, hjpend⟩ := hhold w jid hpairmem
  have hfind : s.jobs.find? (fun x => x.id == jid) = some j := by
    have h0 := find?_eq_of_mem_nodup s.jobs hnd j hjmem
    rw [hjid] at h0
    exact h0
  constructor
  · rw [hs2]
    exact jobStatus_claimJob_self _ _ _ hfind
  · unfold jobStatus
    rw [hfind]
    simp [hjpend]

theorem step_processing_absorb {s : CState} {e : CEvent} {s2 : CState} (jid : Nat)
    (hstep : CStep s e s2) (hinv : StoreInv s)
    (hproc : jobStatus s.jobs jid = some JStatus.processing) :
    jobStatus s2.jobs jid = some JStatus.processing := by
  cases hstep with
  | select w j hidle hsel =>
    rw [show (⟨lockJob s.jobs j.id w, (w, j.id) :: s.holding⟩ : CState).jobs =
      lockJob s.jobs j.id w from rfl, jobStatus_lockJob]
    exact hproc
  | selectNone w hidle hnone =>
    exact hproc
  | commit w jid' hhold2 =>
    by_cases hjj : jid = jid'
    · subst hjj
      obtain ⟨-, hpend⟩ := commit_facts (CStep.commit s w jid hhold2) hinv
      rw [hpend] at hproc
      cases hproc
    · rw [show (⟨claimJob s.jobs jid', s.holding.filter (fun p => p.1 != w)⟩ :
        CState).jobs = claimJob s.jobs jid' from rfl,
        jobStatus_claimJob_other _ _ _ hjj]
      exact hproc

theorem trace_preserves_inv : ∀ {s : CState} {es : List CEvent} {s2 : CState},
    CTrace s es s2 → StoreInv s → StoreInv s2 := by
  intro s es s2 htr
  induction htr with
  | nil => exact id
  | cons hstep _ ih =>
    intro hinv
    exact ih (step_preserves_inv hstep hinv)

theorem commitCount_nil (jid : Nat) : commitCount [] jid = 0 := rfl

theorem commitCount_cons_select (w jid' : Nat) (es : List CEvent) (jid : Nat) :
    commitCount (.select w jid' :: es) jid = commitCount es jid := by
  unfold commitCount
  rw [List.countP_cons]
  simp

theorem commitCount_cons_selectNone (w : Nat) (es : List CEvent) (jid : Nat) :
    commitCount (.selectNone w :: es) jid = commitCount es jid := by
  unfold commitCount
  rw [List.countP_cons]
  simp

theorem commitCount_cons_commit (w jid' : Nat) (es : List CEvent) (jid : Nat) :
    commitCount (.commit w jid' :: es) jid =
      commitCount es jid + (if jid' = jid then 1 else 0) := by
  unfold commitCount
  rw [List.countP_cons]
  by_cases h : jid' = jid <;> simp [h]

theorem trace_commit_bound (jid : Nat) :
    ∀ (es : List CEvent) (s s2 : CState), CTrace s es s2 → StoreInv s →
      commitCount es jid ≤ 1 ∧
      (jobStatus s.jobs jid = some JStatus.processing → commitCount es jid = 0) := by
  intro es
  induction es with
  | nil =>
    intro s s2 htr hinv
    exact ⟨by rw [commitCount_nil]; omega, fun _ => commitCount_nil jid⟩
  | cons e rest ih =>
    intro s s2 htr hinv
    cases htr with
    | cons hstep htr2 =>
      rename_i smid
      have hinv2 := step_preserves_inv hstep hinv
      obtain ⟨ih1, ih2⟩ := ih smid s2 htr2 hinv2
      rcases e with ⟨w, jid'⟩ | w | ⟨w, jid'⟩
      · rw [commitCount_cons_select]
        refine ⟨ih1, ?_⟩
        intro hproc
        exact ih2 (step_processing_absorb jid hstep hinv hproc)
      · rw [commitCount_cons_selectNone]
        refine ⟨ih1, ?_⟩
        intro hproc
        exact ih2 (step_processing_absorb jid hstep hinv hproc)
      · by_cases hjj : jid' = jid
        · subst hjj
          obtain ⟨hproc2, hpend⟩ := commit_facts hstep hinv
          have h0 : commitCount rest jid' = 0 := ih2 hproc2
          rw [commitCount_cons_commit]
          refine ⟨by simp [h0], ?_⟩
          intro hproc
          rw [hpend] at hproc
          cases hproc
        · rw [commitCount_cons_commit]
          rw [if_neg hjj]
          refine ⟨by omega, ?_⟩
          intro hproc
          have h0 := ih2 (step_processing_absorb jid hstep hinv hproc)
          omega

/-- C1: starting from a store with unique row ids and no transaction in
flight, along every interleaving of concurrent fetch_next_job transactions
each job is successfully claimed at most once, at most one worker ever holds
a given job inside its claim transaction, and a selectable pending job can
always be claimed by an idle worker (the claim is available exactly once). -/
theorem c1_no_double_claim (s0 : CState) (es : List CEvent) (s1 : CState)
    (hinit : s0.holding = [] ∧ (s0.jobs.map QJob.id).Nodup)
    (htr : CTrace s0 es s1) (jid : Nat) :
    commitCount es jid ≤ 1 ∧
    (∀ w1 w2, (w1, jid) ∈ s1.holding → (w2, jid) ∈ s1.holding → w1 = w2) ∧
    (∀ w j, lookupW s1.holding w = none → fetchCandidate s1.jobs = some j →
      ∃ s2, CStep s1 (.select w j.id) s2) := by
  have hinv0 : StoreInv s0 := by
    refine ⟨hinit.2, ?_⟩
    intro w jid' hmem
    rw [hinit.1] at hmem
    cases hmem
  have hinv1 : StoreInv s1 := trace_preserves_inv htr hinv0
  refine ⟨(trace_commit_bound jid es s0 s1 htr hinv0).1, ?_, ?_⟩
  · intro w1 w2 h1 h2
    obtain ⟨j1, hj1mem, hj1id, hj1lock, -⟩ := hinv1.2 w1 jid h1
    obtain ⟨j2, hj2mem, hj2id, hj2lock, -⟩ := hinv1.2 w2 jid h2
    have hj12 : j1 = j2 := nodup_inj _ hinv1.1 _ _ hj1mem hj2mem (by rw [hj1id, hj2id])
    have h3 : j2.lockedBy = some w1 := hj12 ▸ hj1lock
    rw [hj2lock] at h3
    exact (Option.some.inj h3).symm
  · intro w j hidle hsel
    exact ⟨_, CStep.select s1 w j hidle hsel⟩

/-- Closed instance of c1_no_double_claim: two workers interleaving their
claim transactions over two pending jobs commit each job exactly once. -/
theorem c1_no_double_claim_witness :
    commitCount [CEvent.select 0 1, CEvent.select 7 2, CEvent.commit 0 1,
      CEvent.commit 7 2] 1 ≤ 1 := by
  have htr : ∃ s1, CTrace ⟨[⟨1, 10, .pending, some "err", none⟩,
      ⟨2, 20, .pending, none, none⟩], []⟩
      [CEvent.select 0 1, CEvent.select 7 2, CEvent.commit 0 1,
       CEvent.commit 7 2] s1 := by
    refine ⟨_, CTrace.cons
      (CStep.select _ 0 ⟨1, 10, .pending, some "err", none⟩ ?_ ?_)
      (CTrace.cons (CStep.select _ 7 ⟨2, 20, .pending, none, none⟩ ?_ ?_)
        (CTrace.cons (CStep.commit _ 0 1 ?_)
          (CTrace.cons (CStep.commit _ 7 2 ?_) (CTrace.nil _))))⟩ <;> decide
  obtain ⟨s1, htr⟩ := htr
  exact (c1_no_double_claim _ _ s1 ⟨rfl, by decide⟩ htr 1).1
